import Mathlib

set_option autoImplicit false

/-!
Verification of the convergence-polling and node-pool reconciliation core of
the `terraform-provider-sci` repository.  Definitions are shallow embeddings
of the Go functions in `sci/kubernikus_util.go` (node-pool expansion,
reconciliation, cluster phase refresher, cluster wait), `sci/arc_util.go`
(agent refresher and wait) and `ccloud/util.go` (`strSliceContains`).
Remote calls are modelled by explicit environments / traces; the reconciler
returns the list of mutation submissions it issues.
-/

/-- Node-pool reboot/replace policy flags, from `models.NodePoolConfig`
(`allow_reboot`, `allow_replace`, both optional booleans). -/
structure NodePoolConfig where
  allowReboot : Option Bool
  allowReplace : Option Bool
  deriving Repr, DecidableEq

/-- A node pool, from `models.NodePool` as expanded by
`kubernikusExpandNodePoolsV1` (fields `name`, `flavor`, `image`, `size`,
`availability_zone`, `taints`, `labels`, `custom_root_disk_size`, `config`). -/
structure NodePool where
  name : String
  flavor : String
  image : String
  size : Int
  availabilityZone : String
  taints : List String
  poolLabels : List String
  customRootDiskSize : Int
  config : NodePoolConfig
  deriving Repr, DecidableEq

/-- Go's `strings.ToLower`, modelled as the per-character case mapping over
the string's characters (the repository only ever compares ASCII names,
which the pool/cluster name validators enforce). -/
def strToLower (s : String) : String := ⟨s.data.map Char.toLower⟩

/-- `strSliceContains` from `ccloud/util.go`: case-insensitive membership of a
string in a string slice (both sides lowercased). -/
def strSliceContains (sl : List String) (str : String) : Bool :=
  sl.any (fun s => strToLower s == strToLower str)

/-- The scanning loop of `kubernikusExpandNodePoolsV1`: walk the raw pool
list, keeping the list of names seen so far; a pool whose name is already in
the seen list (per `strSliceContains`) aborts with the duplicate-name error. -/
def expandNodePoolsGo (names : List String) : List NodePool → Except String (List NodePool)
  | [] => Except.ok []
  | p :: rest =>
    if strSliceContains names p.name then
      Except.error ("duplicate node pool name found: " ++ p.name)
    else
      match expandNodePoolsGo (names ++ [p.name]) rest with
      | Except.ok res => Except.ok (p :: res)
      | Except.error e => Except.error e

/-- `kubernikusExpandNodePoolsV1` from `sci/kubernikus_util.go`, restricted to
well-typed raw input (each raw map supplies every field): returns the pool
list unchanged, or the duplicate-name validation error. -/
def kubernikusExpandNodePoolsV1 (l : List NodePool) : Except String (List NodePool) :=
  expandNodePoolsGo [] l

/-- The matching condition of `kubernikusUpdateNodePoolsV1` (line 290): an old
pool `op` matches a new pool `np` when name, flavor and image are identical
and the new availability zone is either unset or equal to the old one. -/
def nodePoolMatch (op np : NodePool) : Bool :=
  op.name == np.name && op.flavor == np.flavor && op.image == np.image &&
    (np.availabilityZone == "" || op.availabilityZone == np.availabilityZone)

/-- The merge step of `kubernikusUpdateNodePoolsV1` (lines 291-295): the kept
entry is the new pool, with the old ("computed") availability zone copied in
when the new one is unset. -/
def mergeAZ (op np : NodePool) : NodePool :=
  if np.availabilityZone == "" then
    { np with availabilityZone := op.availabilityZone }
  else np

/-- The `poolsToKeep` accumulation of `kubernikusUpdateNodePoolsV1` (lines
287-299): for each old pool, every matching new pool is appended (merged). -/
def poolsToKeep (oldPools newPools : List NodePool) : List NodePool :=
  oldPools.flatMap (fun op => (newPools.filter (fun np => nodePoolMatch op np)).map (mergeAZ op))

/-- The `poolsToDelete` accumulation of `kubernikusUpdateNodePoolsV1` (lines
301-305): old pools with no matching new pool, with size forced to zero. -/
def poolsToDelete (oldPools newPools : List NodePool) : List NodePool :=
  (oldPools.filter (fun op => !(newPools.any (fun np => nodePoolMatch op np)))).map
    (fun op => { op with size := 0 })

/-- `kubernikusUpdateNodePoolsV1` from `sci/kubernikus_util.go`, with the
remote mutations (`kubernikusUpdateAndWait`) modelled as succeeding: returns
the validation outcome together with the ordered list of node-pool lists
submitted as mutations.  On a validation (expansion) error no submission is
issued.  The three potential submissions are: `keep ++ toDelete` (only when
`toDelete` is non-empty), then unconditionally `keep`, then `new` (only when
`keep` differs from `new`, per `reflect.DeepEqual`). -/
def kubernikusUpdateNodePoolsV1 (oldRaw newRaw : List NodePool) :
    Except String Unit × List (List NodePool) :=
  match kubernikusExpandNodePoolsV1 oldRaw with
  | Except.error e => (Except.error e, [])
  | Except.ok oldPools =>
    match kubernikusExpandNodePoolsV1 newRaw with
    | Except.error e => (Except.error e, [])
    | Except.ok newPools =>
      let keep := poolsToKeep oldPools newPools
      let del := poolsToDelete oldPools newPools
      let downscale : List (List NodePool) := if del.isEmpty then [] else [keep ++ del]
      let create : List (List NodePool) := if keep = newPools then [] else [newPools]
      (Except.ok (), downscale ++ [keep] ++ create)

/-- Character-list helper for `strContains`: the pattern (second argument)
occurs at the start of the text (first argument). -/
def startsWithChars : List Char → List Char → Bool
  | _, [] => true
  | [], _ :: _ => false
  | c :: cs, d :: ds => c == d && startsWithChars cs ds

/-- Character-list helper for `strContains`: the pattern (second argument)
occurs somewhere in the text (first argument). -/
def containsChars : List Char → List Char → Bool
  | [], pat => pat.isEmpty
  | c :: ts, pat => startsWithChars (c :: ts) pat || containsChars ts pat

/-- Go's `strings.Contains`: `sub` occurs as a substring of `s`, modelled as
naive substring search over the strings' character lists. -/
def strContains (s sub : String) : Bool :=
  containsChars s.data sub.data

/-- A reported node-pool status, from `models.NodePoolInfo` (fields used by
the refresher: `Name`, `Healthy`; `Size` kept for completeness). -/
structure NodePoolInfo where
  name : String
  size : Int
  healthy : Int
  deriving Repr, DecidableEq

/-- Cluster spec, from `models.KlusterSpec` (fields used by the refresher). -/
structure KlusterSpec where
  version : String
  nodePools : List NodePool
  deriving Repr, DecidableEq

/-- Cluster status, from `models.KlusterStatus` (fields used by the
refresher): the coarse phase, the reported apiserver version, and the
reported node pools. -/
structure KlusterStatus where
  phase : String
  apiserverVersion : String
  nodePools : List NodePoolInfo
  deriving Repr, DecidableEq

/-- A cluster, from `models.Kluster` (spec + status). -/
structure Kluster where
  spec : KlusterSpec
  status : KlusterStatus
  deriving Repr, DecidableEq

/-- A cluster event, from `models.Event` (fields `Reason`, `Message`). -/
structure ClusterEvent where
  reason : String
  message : String
  deriving Repr, DecidableEq

/-- Typed remote errors reaching `kubernikusWaitForClusterV1`:
`showClusterDefault m` models `*operations.ShowClusterDefault` with payload
message `m`; `getEventsError` models a failed `GetClusterEvents` call;
`eventError m` models the `fmt.Errorf` built from a failure event's message. -/
inductive KError where
  | showClusterDefault (payloadMessage : String)
  | getEventsError (message : String)
  | eventError (message : String)
  deriving Repr, DecidableEq

/-- One refresher sample, mirroring the Go triple `(any, string, error)`
returned by a `retry.StateRefreshFunc` for clusters. -/
structure KRefresh where
  obj : Option Kluster
  label : String
  err : Option KError
  deriving Repr, DecidableEq

/-- The outer loop of `kubernikusKlusterV1GetPhase` over `Spec.NodePools`
(lines 236-251): at each iteration, first the upgrade-race check (phase
`"Running"` with a stale apiserver version synthesizes `"Upgrading"`), then
the healthy-count check against `Status.NodePools` (a matching reported pool
with `healthy` different from the desired `size` synthesizes `"Pending"`). -/
def checkSpecPools (k : Kluster) : List NodePool → Option String
  | [] => none
  | a :: rest =>
    if k.status.phase = "Running" ∧ k.spec.version ≠ k.status.apiserverVersion then
      some "Upgrading"
    else if k.status.nodePools.any (fun s => a.name == s.name && a.size != s.healthy) then
      some "Pending"
    else checkSpecPools k rest

/-- The label computed by `kubernikusKlusterV1GetPhase` for a non-terminal
target after the event check: pool-derived synthesis if any, else `"Pending"`
when the spec and status pool counts differ, else the remote phase verbatim
(lines 236-258). -/
def klusterNonTerminalPhase (k : Kluster) : KRefresh :=
  match checkSpecPools k k.spec.nodePools with
  | some lbl => ⟨some k, lbl, none⟩
  | none =>
    if k.spec.nodePools.length ≠ k.status.nodePools.length then ⟨some k, "Pending", none⟩
    else ⟨some k, k.status.phase, none⟩

/-- `kubernikusKlusterV1GetPhase` from `sci/kubernikus_util.go`, with the two
remote calls (`ShowCluster`, `GetClusterEvents`) modelled by their results.
A fetch error propagates.  For a non-`"Terminated"` target, if the most
recent event's reason contains `"Error"` or `"Failed"`, the sample is the
fatal pair (reason as label, event message as error); otherwise the label is
derived from the pools; for target `"Terminated"` the remote phase is
returned directly. -/
def kubernikusKlusterV1GetPhase (target : String) (showRes : Except KError Kluster)
    (eventsRes : Except KError (List ClusterEvent)) : KRefresh :=
  match showRes with
  | Except.error e => ⟨none, "", some e⟩
  | Except.ok k =>
    if target ≠ "Terminated" then
      match eventsRes with
      | Except.error e => ⟨none, "", some e⟩
      | Except.ok events =>
        match events.getLast? with
        | some ev =>
          if strContains ev.reason "Error" || strContains ev.reason "Failed" then
            ⟨none, ev.reason, some (KError.eventError ev.message)⟩
          else klusterNonTerminalPhase k
        | none => klusterNonTerminalPhase k
    else ⟨some k, k.status.phase, none⟩

/-- Outcomes of the polling loop (`retry.StateChangeConf.WaitForStateContext`):
a refresher error aborts the loop; a label outside `target ∪ pending` aborts
with an unexpected-state error; exhausting the trace is a timeout. -/
inductive KWaitError where
  | refreshErr (e : KError)
  | unexpectedState (label : String)
  | nilResult
  | timeout
  deriving Repr, DecidableEq

/-- The polling loop of `retry.StateChangeConf` applied to a finite trace of
cluster refresher samples: stop with the sampled object on the target label,
keep polling on a pending label, abort on a refresher error or an unexpected
label, time out when the trace is exhausted. -/
def pollTrace (target : String) (pending : List String) : List KRefresh → Except KWaitError Kluster
  | [] => Except.error KWaitError.timeout
  | r :: rest =>
    match r.err with
    | some e => Except.error (KWaitError.refreshErr e)
    | none =>
      if r.label = target then
        match r.obj with
        | some k => Except.ok k
        | none => Except.error KWaitError.nilResult
      else if r.label ∈ pending then pollTrace target pending rest
      else Except.error (KWaitError.unexpectedState r.label)

/-- `kubernikusWaitForClusterV1` from `sci/kubernikus_util.go` (lines
191-212), over a trace of refresher samples: run the polling loop; if it
fails with a `ShowClusterDefault` error whose payload message is
`"Not found"` and the target is `"Terminated"`, the wait succeeds (`none`);
any other error is returned. -/
def kubernikusWaitForClusterV1 (target : String) (pending : List String)
    (trace : List KRefresh) : Option KWaitError :=
  match pollTrace target pending trace with
  | Except.ok _ => none
  | Except.error e =>
    match e with
    | KWaitError.refreshErr (KError.showClusterDefault m) =>
      if target = "Terminated" ∧ m = "Not found" then none else some e
    | _ => some e

/-- An arc agent, from `agents.Agent` (fields relevant to selection). -/
structure Agent where
  agentID : String
  project : String
  deriving Repr, DecidableEq

/-- A transport error from the gophercloud client: either an HTTP error with
a status code (as tested by `gophercloud.ResponseCodeIs`) or another error. -/
inductive HttpError where
  | code (status : Nat) (msg : String)
  | other (msg : String)
  deriving Repr, DecidableEq

/-- `gophercloud.ResponseCodeIs err c`: the error carries HTTP status `c`. -/
def responseCodeIs (e : HttpError) (c : Nat) : Bool :=
  match e with
  | HttpError.code s _ => s == c
  | HttpError.other _ => false

/-- Rendering of a transport error into a message (Go's `%v`/`%s` verb). -/
def httpErrString (e : HttpError) : String :=
  match e with
  | HttpError.code _ m => m
  | HttpError.other m => m

/-- The remote arc API as seen by the agent refresher: fetch one agent by id
(`agents.Get`) and list agents by filter (`agents.List` + `ExtractAgents`). -/
structure ArcEnv where
  getAgent : String → Except HttpError Agent
  listAgents : String → Except HttpError (List Agent)

/-- One agent refresher sample, mirroring the Go triple `(any, string,
error)` returned by `arcSCIArcAgentV1GetAgent`'s closure. -/
structure AgentRefresh where
  obj : Option Agent
  label : String
  err : Option String
  deriving Repr, DecidableEq

/-- `arcSCIArcAgentV1GetAgent` from `sci/arc_util.go` (lines 82-131), over an
explicit remote environment.  With an id: a 404 fetch error is a pending
sample when `timeout > 0`, otherwise fatal; success is label `"active"`.
Without an id: zero filter matches is a pending sample, more than one match
is fatal, exactly one match is label `"active"`. -/
def arcSCIArcAgentV1GetAgent (env : ArcEnv) (agentID filterStr : String)
    (timeout : Nat) : AgentRefresh :=
  if agentID.length = 0 ∧ filterStr.length = 0 then
    ⟨none, "", some "at least one of agent_id or filter parameters is expected in sci_arc_agent_v1"⟩
  else if agentID.length > 0 then
    match env.getAgent agentID with
    | Except.error e =>
      if responseCodeIs e 404 ∧ timeout > 0 then
        ⟨none, "unable to retrieve " ++ agentID ++ " sci_arc_agent_v1: " ++ httpErrString e, none⟩
      else
        ⟨none, "", some ("unable to retrieve " ++ agentID ++ " sci_arc_agent_v1: " ++ httpErrString e)⟩
    | Except.ok a => ⟨some a, "active", none⟩
  else
    match env.listAgents filterStr with
    | Except.error e => ⟨none, "", some ("unable to list sci_arc_agent_v1: " ++ httpErrString e)⟩
    | Except.ok allAgents =>
      match allAgents with
      | [] => ⟨none, "No sci_arc_agent_v1 found", none⟩
      | [a] => ⟨some a, "active", none⟩
      | l => ⟨none, "", some ("more than one sci_arc_agent_v1 found (" ++ toString l.length ++ ")")⟩

/-- The shared tail of `arcSCIArcAgentV1WaitForAgent` (lines 71-79): a
non-empty label other than `"active"` is a failure carrying the label; then
a refresher error is a failure; otherwise the sampled agent is returned (the
Go type assertion `agent.(*agents.Agent)` on a nil sample would panic, which
is modelled as an error; no refresher output reaches that case). -/
def arcAgentResult (obj : Option Agent) (msg : String) (err : Option String) :
    Except String Agent :=
  if msg.length > 0 ∧ msg ≠ "active" then Except.error msg
  else
    match err with
    | some e => Except.error e
    | none =>
      match obj with
      | some a => Except.ok a
      | none => Except.error "interface conversion on nil agent"

/-- The `retry.StateChangeConf` loop used by `arcSCIArcAgentV1WaitForAgent`
when `timeout > 0`, on a deterministic refresher sample `r` (the closure is
bound to a fixed environment, so every call returns the same sample): a
refresher error aborts, the target label succeeds, and a pending sample is
retried until the time budget (modelled as a number of attempts) runs out.
Returns the outcome paired with the number of refresher calls issued. -/
def arcWaitLoop (r : AgentRefresh) (target : String) :
    Nat → Nat → (Except String (Option Agent)) × Nat
  | 0, calls => (Except.error "timeout while waiting for state to become 'active'", calls)
  | fuel + 1, calls =>
    match r.err with
    | some e => (Except.error e, calls + 1)
    | none =>
      if r.label = target then (Except.ok r.obj, calls + 1)
      else arcWaitLoop r target fuel (calls + 1)

/-- `arcSCIArcAgentV1WaitForAgent` from `sci/arc_util.go` (lines 48-80):
when `timeout > 0`, run the polling loop (with `msg` left empty); when
`timeout == 0`, call the refresher exactly once and post-process its triple
directly.  Returns the result paired with the number of refresher calls. -/
def arcSCIArcAgentV1WaitForAgent (env : ArcEnv) (agentID filterStr : String)
    (timeout : Nat) : Except String Agent × Nat :=
  if timeout > 0 then
    match arcWaitLoop (arcSCIArcAgentV1GetAgent env agentID filterStr timeout) "active" timeout 0 with
    | (Except.error e, calls) => (arcAgentResult none "" (some e), calls)
    | (Except.ok obj, calls) => (arcAgentResult obj "" none, calls)
  else
    let r := arcSCIArcAgentV1GetAgent env agentID filterStr timeout
    (arcAgentResult r.obj r.label r.err, 1)

lemma expandGo_cons (names : List String) (p : NodePool) (rest : List NodePool) :
    expandNodePoolsGo names (p :: rest) =
      if strSliceContains names p.name then
        Except.error ("duplicate node pool name found: " ++ p.name)
      else
        match expandNodePoolsGo (names ++ [p.name]) rest with
        | Except.ok res => Except.ok (p :: res)
        | Except.error e => Except.error e := rfl

lemma strSliceContains_iff (sl : List String) (s : String) :
    strSliceContains sl s = true ↔ ∃ n ∈ sl, strToLower n = strToLower s := by
  simp [strSliceContains]

lemma expandGo_ok : ∀ (l : List NodePool) (names : List String),
    List.Pairwise (fun a b => strToLower a.name ≠ strToLower b.name) l →
    (∀ p ∈ l, ∀ n ∈ names, strToLower n ≠ strToLower p.name) →
    expandNodePoolsGo names l = Except.ok l := by
  intro l
  induction l with
  | nil => intro names _ _; rfl
  | cons p rest ih =>
    intro names hl hn
    have hc : ¬ strSliceContains names p.name = true := by
      intro hcon
      obtain ⟨n, hmem, heq⟩ := (strSliceContains_iff names p.name).mp hcon
      exact hn p (List.mem_cons_self p rest) n hmem heq
    rw [expandGo_cons, if_neg hc]
    have hrest : expandNodePoolsGo (names ++ [p.name]) rest = Except.ok rest := by
      apply ih _ (List.pairwise_cons.mp hl).2
      intro q hq n hmem
      rcases List.mem_append.mp hmem with hleft | hsing
      · exact hn q (List.mem_cons_of_mem p hq) n hleft
      · rw [List.mem_singleton.mp hsing]
        exact (List.pairwise_cons.mp hl).1 q hq
    rw [hrest]

lemma expand_ok_of_pairwise (l : List NodePool)
    (hl : List.Pairwise (fun a b => strToLower a.name ≠ strToLower b.name) l) :
    kubernikusExpandNodePoolsV1 l = Except.ok l :=
  expandGo_ok l [] hl (by simp)

lemma expandGo_error_mem : ∀ (l : List NodePool) (names : List String) (msg : String),
    expandNodePoolsGo names l = Except.error msg →
    ∃ p ∈ l, msg = "duplicate node pool name found: " ++ p.name := by
  intro l
  induction l with
  | nil => intro names msg h; exact absurd h (by simp [expandNodePoolsGo])
  | cons p rest ih =>
    intro names msg h
    rw [expandGo_cons] at h
    by_cases hc : strSliceContains names p.name = true
    · rw [if_pos hc] at h
      exact ⟨p, List.mem_cons_self p rest, ((Except.error.injEq _ _).mp h).symm⟩
    · rw [if_neg hc] at h
      cases heq : expandNodePoolsGo (names ++ [p.name]) rest with
      | ok res => rw [heq] at h; exact absurd h (by simp)
      | error e =>
        rw [heq] at h
        have he : e = msg := (Except.error.injEq _ _).mp h
        obtain ⟨q, hq, hmsg⟩ := ih (names ++ [p.name]) msg (he ▸ heq)
        exact ⟨q, List.mem_cons_of_mem p hq, hmsg⟩

lemma expandGo_cons_error (names : List String) (p : NodePool) (rest : List NodePool)
    (msg : String) (hc : ¬ strSliceContains names p.name = true)
    (h : expandNodePoolsGo (names ++ [p.name]) rest = Except.error msg) :
    expandNodePoolsGo names (p :: rest) = Except.error msg := by
  rw [expandGo_cons, if_neg hc, h]

lemma expandGo_error_of_seen : ∀ (l : List NodePool) (names : List String),
    (∃ p ∈ l, strSliceContains names p.name = true) →
    ∃ msg, expandNodePoolsGo names l = Except.error msg := by
  intro l
  induction l with
  | nil => intro names h; simp at h
  | cons p rest ih =>
    intro names h
    by_cases hc : strSliceContains names p.name = true
    · exact ⟨_, by rw [expandGo_cons, if_pos hc]⟩
    · obtain ⟨q, hq, hqs⟩ := h
      rcases List.mem_cons.mp hq with rfl | hq'
      · exact absurd hqs hc
      · have hqs' : strSliceContains (names ++ [p.name]) q.name = true := by
          simp only [strSliceContains, List.any_append] at hqs ⊢
          simp [hqs]
        obtain ⟨msg, hmsg⟩ := ih (names ++ [p.name]) ⟨q, hq', hqs'⟩
        exact ⟨msg, expandGo_cons_error names p rest msg hc hmsg⟩

lemma expandGo_error_of_dup : ∀ (l₁ : List NodePool) (names : List String)
    (l₂ l₃ : List NodePool) (p q : NodePool),
    strToLower p.name = strToLower q.name →
    ∃ msg, expandNodePoolsGo names (l₁ ++ p :: (l₂ ++ q :: l₃)) = Except.error msg := by
  intro l₁
  induction l₁ with
  | nil =>
    intro names l₂ l₃ p q hname
    by_cases hc : strSliceContains names p.name = true
    · exact ⟨_, by rw [List.nil_append, expandGo_cons, if_pos hc]⟩
    · have hq : strSliceContains (names ++ [p.name]) q.name = true := by
        rw [strSliceContains_iff]
        exact ⟨p.name, by simp, hname⟩
      obtain ⟨msg, hmsg⟩ :=
        expandGo_error_of_seen (l₂ ++ q :: l₃) (names ++ [p.name]) ⟨q, by simp, hq⟩
      exact ⟨msg, by rw [List.nil_append]; exact expandGo_cons_error names p _ msg hc hmsg⟩
  | cons r l₁ ih =>
    intro names l₂ l₃ p q hname
    by_cases hc : strSliceContains names r.name = true
    · exact ⟨_, by rw [List.cons_append, expandGo_cons, if_pos hc]⟩
    · obtain ⟨msg, hmsg⟩ := ih (names ++ [r.name]) l₂ l₃ p q hname
      exact ⟨msg, by rw [List.cons_append]; exact expandGo_cons_error names r _ msg hc hmsg⟩

/-- **C10.** The duplicate-name check of `kubernikusExpandNodePoolsV1` is
case-insensitive (it uses `strSliceContains`, which lowercases both sides):
any list containing two entries whose names agree after lowercasing is
rejected with the duplicate-name error (which names one of the list's
pools), and a list whose lowercased names are pairwise distinct expands
without error, returning the list unchanged. -/
theorem duplicateNameCheckCaseInsensitive :
    (∀ (l₁ l₂ l₃ : List NodePool) (p q : NodePool),
      strToLower p.name = strToLower q.name →
      ∃ msg, kubernikusExpandNodePoolsV1 (l₁ ++ p :: (l₂ ++ q :: l₃)) = Except.error msg ∧
        ∃ r ∈ l₁ ++ p :: (l₂ ++ q :: l₃), msg = "duplicate node pool name found: " ++ r.name) ∧
    (∀ l : List NodePool,
      List.Pairwise (fun a b => strToLower a.name ≠ strToLower b.name) l →
      kubernikusExpandNodePoolsV1 l = Except.ok l) := by
  constructor
  · intro l₁ l₂ l₃ p q hname
    obtain ⟨msg, hmsg⟩ := expandGo_error_of_dup l₁ [] l₂ l₃ p q hname
    exact ⟨msg, hmsg, expandGo_error_mem _ [] msg hmsg⟩
  · exact expand_ok_of_pairwise

/-- Witness for C10 at concrete inputs: `["A", "a"]` (equal after
lowercasing) is rejected, `["a", "b"]` is accepted unchanged. -/
theorem duplicateNameCheckCaseInsensitive_witness :
    (∃ msg, kubernikusExpandNodePoolsV1
        [⟨"A", "f", "i", 1, "", [], [], 0, ⟨none, none⟩⟩,
         ⟨"a", "f", "i", 1, "", [], [], 0, ⟨none, none⟩⟩] = Except.error msg ∧
      ∃ r ∈ [(⟨"A", "f", "i", 1, "", [], [], 0, ⟨none, none⟩⟩ : NodePool),
             ⟨"a", "f", "i", 1, "", [], [], 0, ⟨none, none⟩⟩],
        msg = "duplicate node pool name found: " ++ r.name) ∧
    kubernikusExpandNodePoolsV1
        [⟨"a", "f", "i", 1, "", [], [], 0, ⟨none, none⟩⟩,
         ⟨"b", "f", "i", 1, "", [], [], 0, ⟨none, none⟩⟩] =
      Except.ok
        [⟨"a", "f", "i", 1, "", [], [], 0, ⟨none, none⟩⟩,
         ⟨"b", "f", "i", 1, "", [], [], 0, ⟨none, none⟩⟩] :=
  ⟨duplicateNameCheckCaseInsensitive.1 [] [] []
      ⟨"A", "f", "i", 1, "", [], [], 0, ⟨none, none⟩⟩
      ⟨"a", "f", "i", 1, "", [], [], 0, ⟨none, none⟩⟩ (by decide),
   duplicateNameCheckCaseInsensitive.2 _ (by decide)⟩
lemma nodePoolMatch_self (p : NodePool) : nodePoolMatch p p = true := by
  simp [nodePoolMatch]

lemma mergeAZ_self (p : NodePool) : mergeAZ p p = p := by
  rw [mergeAZ]
  split <;> rfl

lemma nodePoolMatch_ne_name {op np : NodePool} (h : op.name ≠ np.name) :
    nodePoolMatch op np = false := by
  simp [nodePoolMatch, h]

lemma filter_match_self : ∀ (l : List NodePool) (p : NodePool), p ∈ l →
    List.Pairwise (fun a b => a.name ≠ b.name) l →
    l.filter (fun np => nodePoolMatch p np) = [p] := by
  intro l
  induction l with
  | nil => intro p hp _; simp at hp
  | cons a rest ih =>
    intro p hp hl
    rcases List.mem_cons.mp hp with rfl | hp'
    · rw [List.filter_cons_of_pos (nodePoolMatch_self p)]
      have hrest : rest.filter (fun np => nodePoolMatch p np) = [] := by
        rw [List.filter_eq_nil_iff]
        intro q hq
        simp [nodePoolMatch_ne_name ((List.pairwise_cons.mp hl).1 q hq)]
      rw [hrest]
    · have hne : p.name ≠ a.name := fun h =>
        ((List.pairwise_cons.mp hl).1 p hp') h.symm
      rw [List.filter_cons_of_neg (by simp [nodePoolMatch_ne_name hne])]
      exact ih p hp' (List.pairwise_cons.mp hl).2

lemma flatMap_id_of {α : Type} : ∀ (l : List α) (f : α → List α),
    (∀ p ∈ l, f p = [p]) → l.flatMap f = l := by
  intro l
  induction l with
  | nil => intro f _; rfl
  | cons a rest ih =>
    intro f h
    rw [List.flatMap_cons, h a (List.mem_cons_self a rest),
      ih f (fun p hp => h p (List.mem_cons_of_mem a hp))]
    rfl

lemma poolsToKeep_self (l : List NodePool)
    (hdist : List.Pairwise (fun a b => a.name ≠ b.name) l) :
    poolsToKeep l l = l := by
  apply flatMap_id_of
  intro p hp
  rw [filter_match_self l p hp hdist]
  simp [mergeAZ_self]

lemma poolsToDelete_self (l : List NodePool) : poolsToDelete l l = [] := by
  unfold poolsToDelete
  have h : l.filter (fun op => !(l.any (fun np => nodePoolMatch op np))) = [] := by
    rw [List.filter_eq_nil_iff]
    intro op hop
    have hany : l.any (fun np => nodePoolMatch op np) = true :=
      List.any_eq_true.mpr ⟨op, hop, nodePoolMatch_self op⟩
    simp [hany]
  rw [h]
  rfl

/-- **C1 counterexample.** With `old = new = [pool "a"]` (all fields equal,
availability zone already resolved, names unique), the reconciler does *not*
issue zero mutation submissions: the keep/removal update of
`kubernikusUpdateNodePoolsV1` is unconditional, so one submission is made. -/
theorem reconcileNoopZeroSubmissions_cex :
    ¬ ((kubernikusUpdateNodePoolsV1
        [⟨"a", "f", "i", 3, "zone-1", [], [], 0, ⟨none, none⟩⟩]
        [⟨"a", "f", "i", 3, "zone-1", [], [], 0, ⟨none, none⟩⟩]).2 = []) := by
  decide

/-- **C1 (amended).** For every pair of node-pool lists `old` and `new` that
are exactly equal (names unique up to lowercasing, availability zones
resolved or not), `kubernikusUpdateNodePoolsV1` issues exactly one mutation
submission — the unconditional keep/removal step, whose body is the list
itself — and no downscale or create submission. -/
theorem reconcileNoopSingleSubmission (l : List NodePool)
    (h : List.Pairwise (fun a b => strToLower a.name ≠ strToLower b.name) l) :
    kubernikusUpdateNodePoolsV1 l l = (Except.ok (), [l]) := by
  have hdist : List.Pairwise (fun a b : NodePool => a.name ≠ b.name) l := by
    refine h.imp ?_
    intro a b hab heq
    exact hab (by rw [heq])
  have hexp := expand_ok_of_pairwise l h
  unfold kubernikusUpdateNodePoolsV1
  rw [hexp]
  simp only [poolsToKeep_self l hdist, poolsToDelete_self l, List.isEmpty_nil,
    if_true, if_pos rfl, List.nil_append, List.append_nil]

/-- Witness for C1 (amended) at `old = new = [pool "a"]`. -/
theorem reconcileNoopSingleSubmission_witness :
    kubernikusUpdateNodePoolsV1
        [⟨"a", "f", "i", 3, "zone-1", [], [], 0, ⟨none, none⟩⟩]
        [⟨"a", "f", "i", 3, "zone-1", [], [], 0, ⟨none, none⟩⟩] =
      (Except.ok (), [[⟨"a", "f", "i", 3, "zone-1", [], [], 0, ⟨none, none⟩⟩]]) :=
  reconcileNoopSingleSubmission
    [⟨"a", "f", "i", 3, "zone-1", [], [], 0, ⟨none, none⟩⟩] (by decide)

/-- **C3.** For `old = [pool "a" (flavor "f", image "i", size 3)]` and
`new = []`, the reconciler issues exactly two mutation submissions, in
order: first the node-pool list containing only pool `"a"` downscaled to
size 0, then the empty list; the create step issues no submission. -/
theorem reconcileRemovePoolTwoSubmissions :
    kubernikusUpdateNodePoolsV1
        [⟨"a", "f", "i", 3, "", [], [], 0, ⟨none, none⟩⟩] [] =
      (Except.ok (), [[⟨"a", "f", "i", 0, "", [], [], 0, ⟨none, none⟩⟩], []]) := rfl

/-- **C4.** When `old` or `new` contains two entries with the same name,
`kubernikusUpdateNodePoolsV1` fails with the duplicate-name validation error
(naming a pool of the offending input) and issues zero mutation
submissions — validation happens before any network call. -/
theorem reconcileDuplicateNameValidation (oldRaw newRaw : List NodePool)
    (h : (∃ l₁ l₂ l₃ p q, oldRaw = l₁ ++ p :: (l₂ ++ q :: l₃) ∧
            NodePool.name p = NodePool.name q) ∨
         (∃ l₁ l₂ l₃ p q, newRaw = l₁ ++ p :: (l₂ ++ q :: l₃) ∧
            NodePool.name p = NodePool.name q)) :
    ∃ msg, kubernikusUpdateNodePoolsV1 oldRaw newRaw = (Except.error msg, []) ∧
      ∃ r ∈ oldRaw ++ newRaw, msg = "duplicate node pool name found: " ++ r.name := by
  rcases h with ⟨l₁, l₂, l₃, p, q, rfl, hname⟩ | ⟨l₁, l₂, l₃, p, q, rfl, hname⟩
  · obtain ⟨msg, hmsg⟩ := expandGo_error_of_dup l₁ [] l₂ l₃ p q (by rw [hname])
    have herr : kubernikusExpandNodePoolsV1 (l₁ ++ p :: (l₂ ++ q :: l₃)) = Except.error msg :=
      hmsg
    refine ⟨msg, ?_, ?_⟩
    · unfold kubernikusUpdateNodePoolsV1
      rw [herr]
    · obtain ⟨r, hr, hm⟩ := expandGo_error_mem _ [] msg hmsg
      exact ⟨r, List.mem_append.mpr (Or.inl hr), hm⟩
  · cases hold : kubernikusExpandNodePoolsV1 oldRaw with
    | error e =>
      refine ⟨e, ?_, ?_⟩
      · unfold kubernikusUpdateNodePoolsV1
        rw [hold]
      · obtain ⟨r, hr, hm⟩ := expandGo_error_mem oldRaw [] e hold
        exact ⟨r, List.mem_append.mpr (Or.inl hr), hm⟩
    | ok oldPools =>
      obtain ⟨msg, hmsg⟩ := expandGo_error_of_dup l₁ [] l₂ l₃ p q (by rw [hname])
      have herr : kubernikusExpandNodePoolsV1 (l₁ ++ p :: (l₂ ++ q :: l₃)) =
          Except.error msg := hmsg
      refine ⟨msg, ?_, ?_⟩
      · unfold kubernikusUpdateNodePoolsV1
        rw [hold, herr]
      · obtain ⟨r, hr, hm⟩ := expandGo_error_mem _ [] msg hmsg
        exact ⟨r, List.mem_append.mpr (Or.inr hr), hm⟩

/-- Witness for C4: `old` holds two pools both named `"a"`, `new = []`. -/
theorem reconcileDuplicateNameValidation_witness :
    ∃ msg, kubernikusUpdateNodePoolsV1
        [⟨"a", "f", "i", 1, "", [], [], 0, ⟨none, none⟩⟩,
         ⟨"a", "g", "j", 2, "", [], [], 0, ⟨none, none⟩⟩] [] =
      (Except.error msg, []) ∧
      ∃ r ∈ [(⟨"a", "f", "i", 1, "", [], [], 0, ⟨none, none⟩⟩ : NodePool),
             ⟨"a", "g", "j", 2, "", [], [], 0, ⟨none, none⟩⟩] ++ ([] : List NodePool),
        msg = "duplicate node pool name found: " ++ r.name :=
  reconcileDuplicateNameValidation
    [⟨"a", "f", "i", 1, "", [], [], 0, ⟨none, none⟩⟩,
     ⟨"a", "g", "j", 2, "", [], [], 0, ⟨none, none⟩⟩] []
    (Or.inl ⟨[], [], [],
      ⟨"a", "f", "i", 1, "", [], [], 0, ⟨none, none⟩⟩,
      ⟨"a", "g", "j", 2, "", [], [], 0, ⟨none, none⟩⟩, rfl, rfl⟩)

/-- **C7.** For every matched pool (same name, flavor and image) whose new
entry leaves the availability zone unset, the merged keep entry produced by
the reconciler carries the old, remotely observed availability zone (the
old list is the previously stored state, which holds the remotely assigned
zone): the merged entry is a member of `poolsToKeep`, and its availability
zone is the old one. -/
theorem keepInheritsOldAZ (oldPools newPools : List NodePool) (op np : NodePool)
    (hop : op ∈ oldPools) (hnp : np ∈ newPools)
    (hname : op.name = np.name) (hflavor : op.flavor = np.flavor)
    (himage : op.image = np.image) (haz : np.availabilityZone = "") :
    { np with availabilityZone := op.availabilityZone } ∈ poolsToKeep oldPools newPools ∧
    ({ np with availabilityZone := op.availabilityZone }).availabilityZone =
      op.availabilityZone := by
  refine ⟨?_, rfl⟩
  unfold poolsToKeep
  rw [List.mem_flatMap]
  refine ⟨op, hop, ?_⟩
  rw [List.mem_map]
  refine ⟨np, ?_, ?_⟩
  · rw [List.mem_filter]
    exact ⟨hnp, by simp [nodePoolMatch, hname, hflavor, himage, haz]⟩
  · rw [mergeAZ, if_pos (by simp [haz])]

/-- Witness for C7: old pool `"a"` with observed zone `"east-1"`, new pool
`"a"` with the zone left unset — the kept entry carries `"east-1"`. -/
theorem keepInheritsOldAZ_witness :
    (⟨"a", "f", "i", 3, "east-1", [], [], 0, ⟨none, none⟩⟩ : NodePool) ∈
      poolsToKeep
        [⟨"a", "f", "i", 3, "east-1", [], [], 0, ⟨none, none⟩⟩]
        [⟨"a", "f", "i", 3, "", [], [], 0, ⟨none, none⟩⟩] ∧
    (⟨"a", "f", "i", 3, "east-1", [], [], 0, ⟨none, none⟩⟩ : NodePool).availabilityZone =
      "east-1" :=
  keepInheritsOldAZ
    [⟨"a", "f", "i", 3, "east-1", [], [], 0, ⟨none, none⟩⟩]
    [⟨"a", "f", "i", 3, "", [], [], 0, ⟨none, none⟩⟩]
    ⟨"a", "f", "i", 3, "east-1", [], [], 0, ⟨none, none⟩⟩
    ⟨"a", "f", "i", 3, "", [], [], 0, ⟨none, none⟩⟩
    (List.mem_singleton.mpr rfl) (List.mem_singleton.mpr rfl) rfl rfl rfl rfl

lemma getPhase_ok (target : String) (k : Kluster) (events : List ClusterEvent) :
    kubernikusKlusterV1GetPhase target (Except.ok k) (Except.ok events) =
      if target ≠ "Terminated" then
        match events.getLast? with
        | some ev =>
          if strContains ev.reason "Error" || strContains ev.reason "Failed" then
            ⟨none, ev.reason, some (KError.eventError ev.message)⟩
          else klusterNonTerminalPhase k
        | none => klusterNonTerminalPhase k
      else ⟨some k, k.status.phase, none⟩ := rfl

lemma checkSpecPools_cons (k : Kluster) (a : NodePool) (rest : List NodePool) :
    checkSpecPools k (a :: rest) =
      if k.status.phase = "Running" ∧ k.spec.version ≠ k.status.apiserverVersion then
        some "Upgrading"
      else if k.status.nodePools.any (fun s => a.name == s.name && a.size != s.healthy) then
        some "Pending"
      else checkSpecPools k rest := rfl

/-- **C5 counterexample.** A fetched cluster in phase `"Running"` whose spec
version (`"1.2"`) differs from the reported apiserver version (`"1.1"`) but
whose spec lists no node pools: the refresher reports `"Running"` verbatim,
not the synthesized `"Upgrading"` — the upgrade-race check only runs inside
the loop over the spec's node pools. -/
theorem upgradeSynthesisAlways_cex :
    (kubernikusKlusterV1GetPhase "Running"
        (Except.ok ⟨⟨"1.2", []⟩, ⟨"Running", "1.1", []⟩⟩)
        (Except.ok [])).label ≠ "Upgrading" := by
  decide

/-- **C5 (amended).** For every fetched cluster whose status phase is
`"Running"`, whose spec version differs from the reported apiserver version,
and whose spec lists at least one node pool, the refresher returns the
synthesized label `"Upgrading"` (for any non-`"Terminated"` target) instead
of the remote phase, provided the last event (if any) carries no failure
marker (the event check runs first). -/
theorem upgradeSynthesisWithPools (target : String) (k : Kluster)
    (events : List ClusterEvent)
    (ht : target ≠ "Terminated")
    (hph : k.status.phase = "Running")
    (hv : k.spec.version ≠ k.status.apiserverVersion)
    (hnp : k.spec.nodePools ≠ [])
    (hev : ∀ ev, events.getLast? = some ev →
      (strContains ev.reason "Error" || strContains ev.reason "Failed") = false) :
    kubernikusKlusterV1GetPhase target (Except.ok k) (Except.ok events) =
      ⟨some k, "Upgrading", none⟩ := by
  have hk : klusterNonTerminalPhase k = ⟨some k, "Upgrading", none⟩ := by
    obtain ⟨a, rest, hcons⟩ := List.exists_cons_of_ne_nil hnp
    unfold klusterNonTerminalPhase
    rw [hcons, checkSpecPools_cons, if_pos ⟨hph, hv⟩]
  rw [getPhase_ok, if_pos ht]
  cases hevcase : events.getLast? with
  | none => simpa using hk
  | some ev => simp [hev ev hevcase, hk]

/-- Witness for C5 (amended): one spec pool, phase `"Running"`, version
`"1.2"` vs apiserver `"1.1"`, no events — label `"Upgrading"`. -/
theorem upgradeSynthesisWithPools_witness :
    kubernikusKlusterV1GetPhase "Running"
        (Except.ok ⟨⟨"1.2", [⟨"a", "f", "i", 1, "", [], [], 0, ⟨none, none⟩⟩]⟩,
                    ⟨"Running", "1.1", []⟩⟩)
        (Except.ok []) =
      ⟨some ⟨⟨"1.2", [⟨"a", "f", "i", 1, "", [], [], 0, ⟨none, none⟩⟩]⟩,
             ⟨"Running", "1.1", []⟩⟩, "Upgrading", none⟩ :=
  upgradeSynthesisWithPools "Running"
    ⟨⟨"1.2", [⟨"a", "f", "i", 1, "", [], [], 0, ⟨none, none⟩⟩]⟩, ⟨"Running", "1.1", []⟩⟩
    [] (by decide) rfl (by decide) (by decide) (fun ev h => by simp at h)

/-- **C6 counterexample.** The refresher checks only the most recent event:
with events `[{reason: "ConfigurationError", message: "boom"}, {reason:
"ScaleUp", message: "ok"}]` — the first event carries a failure marker, the
last does not — the refresher does not fail (no error is returned), contrary
to the claim that *any* recent failure event aborts the poll. -/
theorem anyEventFailureMarkerFatal_cex :
    (kubernikusKlusterV1GetPhase "Running"
        (Except.ok ⟨⟨"1.0", []⟩, ⟨"Running", "1.0", []⟩⟩)
        (Except.ok [⟨"ConfigurationError", "boom"⟩, ⟨"ScaleUp", "ok"⟩])).err = none := by
  decide

/-- **C6 (amended).** For every cluster poll with a non-terminal target: if
the most recent (last) event's reason contains `"Error"` or `"Failed"`, the
refresher fails immediately with that event's message as a fatal error
(non-nil error aborts the retry loop), regardless of the fetched cluster's
phase or pools — the event check takes priority over phase inspection and
label synthesis. -/
theorem lastEventFailureMarkerFatal (target : String) (k : Kluster)
    (evs : List ClusterEvent) (ev : ClusterEvent)
    (ht : target ≠ "Terminated")
    (hm : strContains ev.reason "Error" = true ∨ strContains ev.reason "Failed" = true) :
    kubernikusKlusterV1GetPhase target (Except.ok k) (Except.ok (evs ++ [ev])) =
      ⟨none, ev.reason, some (KError.eventError ev.message)⟩ := by
  rw [getPhase_ok, if_pos ht, List.getLast?_concat]
  have hcond : (strContains ev.reason "Error" || strContains ev.reason "Failed") = true := by
    rcases hm with h | h <;> simp [h]
  simp [hcond]

/-- Witness for C6 (amended): last event reason `"CreateFailed"`, message
`"cannot create"`, arbitrary cluster in phase `"Running"`. -/
theorem lastEventFailureMarkerFatal_witness :
    kubernikusKlusterV1GetPhase "Creating"
        (Except.ok ⟨⟨"1.0", []⟩, ⟨"Running", "1.0", []⟩⟩)
        (Except.ok ([⟨"Scheduled", "ok"⟩] ++ [⟨"CreateFailed", "cannot create"⟩])) =
      ⟨none, "CreateFailed", some (KError.eventError "cannot create")⟩ :=
  lastEventFailureMarkerFatal "Creating" ⟨⟨"1.0", []⟩, ⟨"Running", "1.0", []⟩⟩
    [⟨"Scheduled", "ok"⟩] ⟨"CreateFailed", "cannot create"⟩
    (by decide) (Or.inr (by decide))

lemma pollTrace_cons (target : String) (pending : List String) (r : KRefresh)
    (rest : List KRefresh) :
    pollTrace target pending (r :: rest) =
      match r.err with
      | some e => Except.error (KWaitError.refreshErr e)
      | none =>
        if r.label = target then
          match r.obj with
          | some k => Except.ok k
          | none => Except.error KWaitError.nilResult
        else if r.label ∈ pending then pollTrace target pending rest
        else Except.error (KWaitError.unexpectedState r.label) := rfl

lemma pollTrace_append_pending (target : String) (pending : List String)
    (pre rest : List KRefresh)
    (h : ∀ r ∈ pre, r.err = none ∧ r.label ∈ pending ∧ r.label ≠ target) :
    pollTrace target pending (pre ++ rest) = pollTrace target pending rest := by
  induction pre with
  | nil => rfl
  | cons r pre ih =>
    obtain ⟨herr, hpend, hne⟩ := h r (List.mem_cons_self r pre)
    rw [List.cons_append, pollTrace_cons, herr, if_neg hne, if_pos hpend]
    exact ih (fun x hx => h x (List.mem_cons_of_mem r hx))

/-- **C2.** For every cluster delete wait (target `"Terminated"`): when the
polling loop consumes any number of pending samples — none of which ever
carries the label `"Terminated"` — and then ends with a remote
`ShowClusterDefault` error whose payload message is `"Not found"`,
`kubernikusWaitForClusterV1` returns success (no error). -/
theorem waitForClusterNotFoundOnDelete (pending : List String) (pre : List KRefresh)
    (h : ∀ r ∈ pre, r.err = none ∧ r.label ∈ pending ∧ r.label ≠ "Terminated") :
    kubernikusWaitForClusterV1 "Terminated" pending
      (pre ++ [⟨none, "", some (KError.showClusterDefault "Not found")⟩]) = none := by
  unfold kubernikusWaitForClusterV1
  rw [pollTrace_append_pending "Terminated" pending pre _ h]
  rfl

/-- Witness for C2: one pending `"Terminating"` sample, then the
`"Not found"` error — the wait succeeds. -/
theorem waitForClusterNotFoundOnDelete_witness :
    kubernikusWaitForClusterV1 "Terminated" ["Terminating"]
      [⟨some ⟨⟨"1.0", []⟩, ⟨"Terminating", "1.0", []⟩⟩, "Terminating", none⟩,
       ⟨none, "", some (KError.showClusterDefault "Not found")⟩] = none :=
  waitForClusterNotFoundOnDelete ["Terminating"]
    [⟨some ⟨⟨"1.0", []⟩, ⟨"Terminating", "1.0", []⟩⟩, "Terminating", none⟩] (by decide)

lemma strLength_zero_eq_empty (s : String) (h : s.length = 0) : s = "" := by
  cases s with
  | mk data =>
    simp [String.length] at h
    simp [h]

lemma unable_msg_ne_active (s t u : String) :
    "unable to retrieve " ++ s ++ t ++ u ≠ "active" := by
  intro h
  have hlen := congrArg String.length h
  rw [String.length_append, String.length_append, String.length_append] at hlen
  have h1 : ("unable to retrieve ").length = 19 := by decide
  have h2 : ("active").length = 6 := by decide
  omega

lemma arcAgentResult_ok_obj (obj : Option Agent) (msg : String) (err : Option String)
    (a : Agent) (h : arcAgentResult obj msg err = Except.ok a) : obj = some a := by
  unfold arcAgentResult at h
  split at h
  · exact absurd h (by simp)
  · cases err with
    | some e => exact absurd h (by simp)
    | none =>
      cases obj with
      | some b => simpa using (Except.ok.injEq _ _ ▸ h : b = a) ▸ rfl
      | none => exact absurd h (by simp)

lemma arcGetAgent_obj_some (env : ArcEnv) (agentID filterStr : String) (timeout : Nat)
    (a : Agent)
    (h : (arcSCIArcAgentV1GetAgent env agentID filterStr timeout).obj = some a) :
    arcSCIArcAgentV1GetAgent env agentID filterStr timeout = ⟨some a, "active", none⟩ := by
  by_cases hguard : agentID.length = 0 ∧ filterStr.length = 0
  · simp [arcSCIArcAgentV1GetAgent, hguard] at h
  · by_cases hid : agentID.length > 0
    · cases hget : env.getAgent agentID with
      | error e =>
        by_cases hcond : responseCodeIs e 404 = true ∧ timeout > 0
        · simp [arcSCIArcAgentV1GetAgent, hguard, hid, hget, hcond] at h
        · simp [arcSCIArcAgentV1GetAgent, hguard, hid, hget, hcond] at h
      | ok b =>
        simp only [arcSCIArcAgentV1GetAgent, hguard, hid, hget, if_neg hguard,
          if_pos hid] at h ⊢
        simp at h
        simp [h]
    · cases hlist : env.listAgents filterStr with
      | error e => simp [arcSCIArcAgentV1GetAgent, hguard, hid, hlist] at h
      | ok l =>
        rcases l with _ | ⟨b, _ | ⟨c, rest⟩⟩
        · simp [arcSCIArcAgentV1GetAgent, hguard, hid, hlist] at h
        · simp only [arcSCIArcAgentV1GetAgent, hlist, if_neg hguard, if_neg hid] at h ⊢
          simp at h
          simp [h]
        · simp [arcSCIArcAgentV1GetAgent, hguard, hid, hlist] at h

/-- **C8.** For every wait invoked with `timeout == 0`,
`arcSCIArcAgentV1WaitForAgent` issues exactly one refresher call and returns
its post-processed result directly: a sample whose label is `"active"` (the
target) yields success with the sampled agent, and any other label or error
yields a failure. -/
theorem waitForAgentZeroTimeout (env : ArcEnv) (agentID filterStr : String) :
    (arcSCIArcAgentV1WaitForAgent env agentID filterStr 0).2 = 1 ∧
    (arcSCIArcAgentV1WaitForAgent env agentID filterStr 0).1 =
      arcAgentResult (arcSCIArcAgentV1GetAgent env agentID filterStr 0).obj
        (arcSCIArcAgentV1GetAgent env agentID filterStr 0).label
        (arcSCIArcAgentV1GetAgent env agentID filterStr 0).err ∧
    ((∃ a, (arcSCIArcAgentV1WaitForAgent env agentID filterStr 0).1 = Except.ok a) ↔
      (∃ a, (arcSCIArcAgentV1GetAgent env agentID filterStr 0).obj = some a ∧
        (arcSCIArcAgentV1GetAgent env agentID filterStr 0).label = "active")) := by
  refine ⟨rfl, rfl, ?_, ?_⟩
  · rintro ⟨a, ha⟩
    have ha' : arcAgentResult (arcSCIArcAgentV1GetAgent env agentID filterStr 0).obj
        (arcSCIArcAgentV1GetAgent env agentID filterStr 0).label
        (arcSCIArcAgentV1GetAgent env agentID filterStr 0).err = Except.ok a := ha
    have hobj := arcAgentResult_ok_obj _ _ _ a ha'
    have hr := arcGetAgent_obj_some env agentID filterStr 0 a hobj
    exact ⟨a, by rw [hr], by rw [hr]⟩
  · rintro ⟨a, hobj, _⟩
    have hr := arcGetAgent_obj_some env agentID filterStr 0 a hobj
    refine ⟨a, ?_⟩
    show arcAgentResult (arcSCIArcAgentV1GetAgent env agentID filterStr 0).obj
        (arcSCIArcAgentV1GetAgent env agentID filterStr 0).label
        (arcSCIArcAgentV1GetAgent env agentID filterStr 0).err = Except.ok a
    rw [hr]
    rfl

/-- **C9.** Classification performed by the agent refresher
`arcSCIArcAgentV1GetAgent`: with an explicit agent id, a not-found (HTTP
404) fetch error is a retryable pending outcome (no error, non-`"active"`
label, nil object) when the requested timeout is positive, and a fatal
error when the timeout is zero; with a filter and no id, zero matches is a
retryable pending outcome, more than one match is a fatal error, and
exactly one match returns that agent with label `"active"`. -/
theorem agentRefresherClassification (env : ArcEnv) (agentID filterStr : String)
    (timeout : Nat) :
    (∀ e, agentID ≠ "" → env.getAgent agentID = Except.error e →
      responseCodeIs e 404 = true →
      ((0 < timeout →
        (arcSCIArcAgentV1GetAgent env agentID filterStr timeout).err = none ∧
        (arcSCIArcAgentV1GetAgent env agentID filterStr timeout).label ≠ "active" ∧
        (arcSCIArcAgentV1GetAgent env agentID filterStr timeout).obj = none) ∧
      (timeout = 0 →
        ∃ m, arcSCIArcAgentV1GetAgent env agentID filterStr timeout = ⟨none, "", some m⟩))) ∧
    (agentID = "" → filterStr ≠ "" →
      ((env.listAgents filterStr = Except.ok [] →
        arcSCIArcAgentV1GetAgent env agentID filterStr timeout =
          ⟨none, "No sci_arc_agent_v1 found", none⟩) ∧
      (∀ l, env.listAgents filterStr = Except.ok l → 1 < l.length →
        ∃ m, arcSCIArcAgentV1GetAgent env agentID filterStr timeout = ⟨none, "", some m⟩) ∧
      (∀ a, env.listAgents filterStr = Except.ok [a] →
        arcSCIArcAgentV1GetAgent env agentID filterStr timeout =
          ⟨some a, "active", none⟩))) := by
  constructor
  · intro e hid hget h404
    have hlen : agentID.length > 0 :=
      Nat.pos_of_ne_zero (fun h0 => hid (strLength_zero_eq_empty agentID h0))
    have hguard : ¬ (agentID.length = 0 ∧ filterStr.length = 0) := by
      rintro ⟨h0, _⟩
      omega
    constructor
    · intro ht
      have hres : arcSCIArcAgentV1GetAgent env agentID filterStr timeout =
          ⟨none, "unable to retrieve " ++ agentID ++ " sci_arc_agent_v1: " ++
            httpErrString e, none⟩ := by
        simp [arcSCIArcAgentV1GetAgent, hguard, hlen, hget, h404, ht]
      rw [hres]
      exact ⟨rfl, unable_msg_ne_active agentID " sci_arc_agent_v1: " (httpErrString e), rfl⟩
    · intro ht0
      subst ht0
      refine ⟨"unable to retrieve " ++ agentID ++ " sci_arc_agent_v1: " ++
        httpErrString e, ?_⟩
      simp [arcSCIArcAgentV1GetAgent, hguard, hlen, hget]
  · intro hid hfil
    subst hid
    have hflen : filterStr.length > 0 :=
      Nat.pos_of_ne_zero (fun h0 => hfil (strLength_zero_eq_empty filterStr h0))
    have hfzero : ¬ filterStr.length = 0 := by omega
    refine ⟨?_, ?_, ?_⟩
    · intro hlist
      simp [arcSCIArcAgentV1GetAgent, hfzero, hlist]
    · intro l hlist hlen
      rcases l with _ | ⟨b, _ | ⟨c, rest⟩⟩
      · simp at hlen
      · simp at hlen
      · have hres : arcSCIArcAgentV1GetAgent env "" filterStr timeout =
            ⟨none, "", some ("more than one sci_arc_agent_v1 found (" ++
              toString (b :: c :: rest).length ++ ")")⟩ := by
          simp [arcSCIArcAgentV1GetAgent, hfzero, hlist]
        exact ⟨_, hres⟩
    · intro a hlist
      simp [arcSCIArcAgentV1GetAgent, hfzero, hlist]

/-- Witness for C9: concrete environments exercising the 404-with-id (both
timeouts), empty-list, two-match and single-match classifications. -/
theorem agentRefresherClassification_witness :
    ((arcSCIArcAgentV1GetAgent
        ⟨fun _ => Except.error (HttpError.code 404 "not found"), fun _ => Except.ok []⟩
        "agent-1" "" 5).err = none ∧
     (arcSCIArcAgentV1GetAgent
        ⟨fun _ => Except.error (HttpError.code 404 "not found"), fun _ => Except.ok []⟩
        "agent-1" "" 5).label ≠ "active" ∧
     (arcSCIArcAgentV1GetAgent
        ⟨fun _ => Except.error (HttpError.code 404 "not found"), fun _ => Except.ok []⟩
        "agent-1" "" 5).obj = none) ∧
    (∃ m, arcSCIArcAgentV1GetAgent
        ⟨fun _ => Except.error (HttpError.code 404 "not found"), fun _ => Except.ok []⟩
        "agent-1" "" 0 = ⟨none, "", some m⟩) ∧
    (arcSCIArcAgentV1GetAgent
        ⟨fun _ => Except.error (HttpError.other "x"), fun _ => Except.ok []⟩
        "" "os=linux" 7 = ⟨none, "No sci_arc_agent_v1 found", none⟩) ∧
    (∃ m, arcSCIArcAgentV1GetAgent
        ⟨fun _ => Except.error (HttpError.other "x"),
         fun _ => Except.ok [⟨"agent-1", "p"⟩, ⟨"agent-2", "p"⟩]⟩
        "" "os=linux" 7 = ⟨none, "", some m⟩) ∧
    (arcSCIArcAgentV1GetAgent
        ⟨fun _ => Except.error (HttpError.other "x"), fun _ => Except.ok [⟨"agent-1", "p"⟩]⟩
        "" "os=linux" 7 = ⟨some ⟨"agent-1", "p"⟩, "active", none⟩) :=
  ⟨((agentRefresherClassification
      ⟨fun _ => Except.error (HttpError.code 404 "not found"), fun _ => Except.ok []⟩
      "agent-1" "" 5).1 (HttpError.code 404 "not found")
      (by decide) rfl rfl).1 (by decide),
   ((agentRefresherClassification
      ⟨fun _ => Except.error (HttpError.code 404 "not found"), fun _ => Except.ok []⟩
      "agent-1" "" 0).1 (HttpError.code 404 "not found")
      (by decide) rfl rfl).2 rfl,
   ((agentRefresherClassification
      ⟨fun _ => Except.error (HttpError.other "x"), fun _ => Except.ok []⟩
      "" "os=linux" 7).2 rfl (by decide)).1 rfl,
   ((agentRefresherClassification
      ⟨fun _ => Except.error (HttpError.other "x"),
       fun _ => Except.ok [⟨"agent-1", "p"⟩, ⟨"agent-2", "p"⟩]⟩
      "" "os=linux" 7).2 rfl (by decide)).2.1
      [⟨"agent-1", "p"⟩, ⟨"agent-2", "p"⟩] rfl (by decide),
   ((agentRefresherClassification
      ⟨fun _ => Except.error (HttpError.other "x"), fun _ => Except.ok [⟨"agent-1", "p"⟩]⟩
      "" "os=linux" 7).2 rfl (by decide)).2.2 ⟨"agent-1", "p"⟩ rfl⟩

/-- Witness for C8 at a concrete environment whose fetch returns an agent. -/
theorem waitForAgentZeroTimeout_witness :
    (arcSCIArcAgentV1WaitForAgent
        ⟨fun _ => Except.ok ⟨"agent-1", "p"⟩, fun _ => Except.ok []⟩ "agent-1" "" 0).2 = 1 ∧
    (arcSCIArcAgentV1WaitForAgent
        ⟨fun _ => Except.ok ⟨"agent-1", "p"⟩, fun _ => Except.ok []⟩ "agent-1" "" 0).1 =
      arcAgentResult
        (arcSCIArcAgentV1GetAgent
          ⟨fun _ => Except.ok ⟨"agent-1", "p"⟩, fun _ => Except.ok []⟩ "agent-1" "" 0).obj
        (arcSCIArcAgentV1GetAgent
          ⟨fun _ => Except.ok ⟨"agent-1", "p"⟩, fun _ => Except.ok []⟩ "agent-1" "" 0).label
        (arcSCIArcAgentV1GetAgent
          ⟨fun _ => Except.ok ⟨"agent-1", "p"⟩, fun _ => Except.ok []⟩ "agent-1" "" 0).err ∧
    ((∃ a, (arcSCIArcAgentV1WaitForAgent
        ⟨fun _ => Except.ok ⟨"agent-1", "p"⟩, fun _ => Except.ok []⟩ "agent-1" "" 0).1 =
          Except.ok a) ↔
      (∃ a, (arcSCIArcAgentV1GetAgent
          ⟨fun _ => Except.ok ⟨"agent-1", "p"⟩, fun _ => Except.ok []⟩ "agent-1" "" 0).obj =
            some a ∧
        (arcSCIArcAgentV1GetAgent
          ⟨fun _ => Except.ok ⟨"agent-1", "p"⟩, fun _ => Except.ok []⟩ "agent-1" "" 0).label =
            "active")) :=
  waitForAgentZeroTimeout
    ⟨fun _ => Except.ok ⟨"agent-1", "p"⟩, fun _ => Except.ok []⟩ "agent-1" ""
